import Mathlib

/-!
Shallow embedding of the DeckTutor combo-detection service
(src/python-service/main.py) and verification of its specification.

The Python service is embedded as pure Lean functions:
* provider dictionaries become the `ComboData` structure (a field holds
  `none` exactly when the corresponding dictionary key is absent);
* the process-wide in-memory cache (`combo_cache`) becomes an explicit
  insertion-ordered association list threaded through the functions;
* the external `pyedhrec` provider becomes a function argument returning a
  `ProviderResult` (unavailable / raised / returned records);
* Python dictionaries used for deduplication (`found_combos`,
  `potential_combos` in `find_combos_in_deck`) become insertion-ordered
  association lists, so dictionary insertion order is preserved;
* Python's built-in `hash` on strings is salted per process
  (PYTHONHASHSEED); it is modelled by `pyHash`, a deterministic function of
  a `salt` parameter standing for the per-process salt and of the string.
-/

namespace DeckTutor

/-- Python's `str.lower()`. Extensionally the same as `String.toLower`
(both map `Char.toLower` over the characters); written via the character
list so that it is kernel-computable. -/
def lower (s : String) : String :=
  String.mk (s.data.map Char.toLower)

/-- A raw combo record returned by the provider: a Python dictionary.
A field is `none` exactly when the key is absent from the dictionary. -/
structure ComboData where
  id : Option String := none
  name : Option String := none
  cards : Option (List String) := none
  description : Option String := none
  prerequisite : Option String := none
  steps : Option (List String) := none
  result : Option String := none
  colorIdentity : Option (List String) := none
  sourceUrl : Option String := none
deriving Repr, DecidableEq

/-- Pydantic model `Combo` from main.py. -/
structure Combo where
  id : String
  name : Option String
  cards : List String
  description : String
  prerequisite : Option String
  steps : List String
  result : String
  color_identity : List String
  source_url : Option String
deriving Repr, DecidableEq

/-- Pydantic model `DeckCombo` from main.py. -/
structure DeckCombo where
  combo : Combo
  is_complete : Bool
  present_cards : List String
  missing_cards : List String
deriving Repr, DecidableEq

/-- Pydantic model `PotentialCombo` from main.py. -/
structure PotentialCombo where
  cards : List String
  missing_pieces : List String
  description : String
deriving Repr, DecidableEq

/-- Pydantic model `ComboRequest` from main.py. -/
structure ComboRequest where
  cards : List String
  commander : Option String := none
deriving Repr, DecidableEq

/-- Pydantic model `ComboResponse` from main.py. -/
structure ComboResponse where
  combos : List DeckCombo
  potential_combos : List PotentialCombo
  analyzed_cards : Nat
  processing_time : Nat
deriving Repr, DecidableEq

/-- FastAPI `HTTPException` as raised by `check_combos`. -/
structure HTTPException where
  status_code : Nat
  detail : String
deriving Repr, DecidableEq

/-- Outcome of one call to the external provider (`pyedhrec`):
the import fails, the call raises, or it returns a list of records. -/
inductive ProviderResult where
  | unavailable
  | failure (msg : String)
  | ok (records : List ComboData)
deriving Repr, DecidableEq

/-- The process-wide `combo_cache : dict[str, list[dict]]`, as an
insertion-ordered association list. -/
abbrev Cache := List (String × List ComboData)

/-- Function `get_card_combos_cached` from main.py. On a hit the stored list is
returned and the cache is unchanged. On a miss the provider is called:
a returned list is stored under the lowercased key (`combos if combos
else []`) and returned; an ImportError or any other exception returns an
empty list WITHOUT storing anything. -/
def get_card_combos_cached (provider : String → ProviderResult)
    (combo_cache : Cache) (card_name : String) : List ComboData × Cache :=
  let cache_key := lower card_name
  match combo_cache.lookup cache_key with
  | some v => (v, combo_cache)
  | none =>
    match provider card_name with
    | ProviderResult.ok combos =>
        let stored := if combos.isEmpty then [] else combos
        (stored, combo_cache ++ [(cache_key, stored)])
    | ProviderResult.unavailable => ([], combo_cache)
    | ProviderResult.failure _ => ([], combo_cache)

/-- Rendering of an optional string field inside `serialize`. -/
def serializeField : Option String → String
  | none => "None"
  | some s => s

/-- Comma join used by `serializeList`. -/
def joinSep (sep : String) : List String → String
  | [] => ""
  | [x] => x
  | x :: y :: xs => x ++ sep ++ joinSep sep (y :: xs)

/-- Rendering of an optional list field inside `serialize`. -/
def serializeList : Option (List String) → String
  | none => "None"
  | some l => joinSep ", " l

/-- Modelled: Python's `str(combo_data)` on a record dictionary — a
deterministic rendering of the record's content. The exact text differs
from CPython's; what matters for the program is that it is a function of
the record's content only. -/
def serialize (d : ComboData) : String :=
  "id: " ++ serializeField d.id ++
  "; name: " ++ serializeField d.name ++
  "; cards: " ++ serializeList d.cards ++
  "; description: " ++ serializeField d.description ++
  "; prerequisite: " ++ serializeField d.prerequisite ++
  "; steps: " ++ serializeList d.steps ++
  "; result: " ++ serializeField d.result ++
  "; colorIdentity: " ++ serializeList d.colorIdentity ++
  "; sourceUrl: " ++ serializeField d.sourceUrl

/-- Modelled: Python's built-in `hash` on a string. CPython salts string
hashing per process (PYTHONHASHSEED); this is modelled by the explicit
`salt` parameter, a rolling hash whose value depends on both the salt and
the string. Within one process the salt is fixed, so the function is
deterministic there; across processes the salt differs. -/
def pyHash (salt : Nat) (s : String) : Nat :=
  s.data.foldl (fun a c => (a * 1000003 + c.toNat) % (2 ^ 61)) salt

/-- Embeds `combo_data.get("id", str(hash(str(combo_data))))` from main.py:
the record's id, synthesized from the hashed serialized content when the
key is absent. -/
def identityOf (salt : Nat) (d : ComboData) : String :=
  match d.id with
  | some i => i
  | none => toString (pyHash salt (serialize d))

/-- Embeds `[c.lower() for c in combo_data.get("cards", [])]` from main.py. -/
def lowerCards (d : ComboData) : List String :=
  (d.cards.getD []).map lower

/-- Embeds `present = [c for c in combo_cards if c in deck_cards]` from main.py. -/
def presentOf (deck_cards : List String) (d : ComboData) : List String :=
  (lowerCards d).filter (fun c => deck_cards.contains c)

/-- Embeds `missing = [c for c in combo_cards if c not in deck_cards]`. -/
def missingOf (deck_cards : List String) (d : ComboData) : List String :=
  (lowerCards d).filter (fun c => !(deck_cards.contains c))

/-- Embeds `combo_data.get("result", combo_data.get("description", "Unknown
combo"))` from main.py: the description stored on a PotentialCombo. -/
def potentialDescription (d : ComboData) : String :=
  d.result.getD (d.description.getD "Unknown combo")

/-- The `Combo(...)` constructed in the complete branch of
`find_combos_in_deck`, with every `.get` default made explicit. -/
def comboOf (combo_id : String) (d : ComboData) : Combo :=
  { id := combo_id
    name := d.name
    cards := d.cards.getD []
    description := d.description.getD ""
    prerequisite := d.prerequisite
    steps := d.steps.getD []
    result := d.result.getD ""
    color_identity := d.colorIdentity.getD []
    source_url := d.sourceUrl }

/-- The `DeckCombo(...)` registered in the complete branch. -/
def mkDeckCombo (salt : Nat) (deck_cards : List String) (d : ComboData) :
    DeckCombo :=
  { combo := comboOf (identityOf salt d) d
    is_complete := true
    present_cards := presentOf deck_cards d
    missing_cards := [] }

/-- The `PotentialCombo(...)` registered in the potential branch. -/
def mkPotentialCombo (deck_cards : List String) (d : ComboData) :
    PotentialCombo :=
  { cards := presentOf deck_cards d
    missing_pieces := missingOf deck_cards d
    description := potentialDescription d }

/-- The two deduplication dictionaries of `find_combos_in_deck`
(`found_combos`, `potential_combos`), keyed by combo identity. -/
structure MatcherState where
  found_combos : List (String × DeckCombo)
  potential_combos : List (String × PotentialCombo)
deriving Repr, DecidableEq

/-- The body of the inner `for combo_data in card_combos` loop of
`find_combos_in_deck`: skip an empty card list, skip when fewer than two
combo cards are in the deck, otherwise register the record as complete
(key not already complete) or as potential (key neither potential nor
complete already). -/
def processRecord (salt : Nat) (deck_cards : List String)
    (s : MatcherState) (combo_data : ComboData) : MatcherState :=
  if (lowerCards combo_data).isEmpty then s
  else if (presentOf deck_cards combo_data).length < 2 then s
  else if (missingOf deck_cards combo_data).isEmpty then
    if (s.found_combos.lookup (identityOf salt combo_data)).isSome then s
    else { s with found_combos := s.found_combos ++
      [(identityOf salt combo_data, mkDeckCombo salt deck_cards combo_data)] }
  else
    if (s.potential_combos.lookup (identityOf salt combo_data)).isSome
        || (s.found_combos.lookup (identityOf salt combo_data)).isSome then s
    else { s with potential_combos := s.potential_combos ++
      [(identityOf salt combo_data, mkPotentialCombo deck_cards combo_data)] }

/-- The outer `for card_name in card_names` loop of `find_combos_in_deck`:
look each card up through the cache (threading the cache, which the
Python code mutates globally) and fold the returned records into the
matcher state. -/
def matchLoop (salt : Nat) (provider : String → ProviderResult)
    (deck_cards : List String) :
    List String → Cache → MatcherState → MatcherState × Cache
  | [], combo_cache, s => (s, combo_cache)
  | card_name :: rest, combo_cache, s =>
    let r := get_card_combos_cached provider combo_cache card_name
    matchLoop salt provider deck_cards rest r.2
      (r.1.foldl (processRecord salt deck_cards) s)

/-- Function `find_combos_in_deck` from main.py: build the lowercased deck set,
run the loops, and return the values of the two dictionaries in
insertion order (plus the updated cache, global state in Python). -/
def find_combos_in_deck (salt : Nat) (provider : String → ProviderResult)
    (combo_cache : Cache) (card_names : List String) :
    (List DeckCombo × List PotentialCombo) × Cache :=
  let deck_cards := card_names.map lower
  let r := matchLoop salt provider deck_cards card_names combo_cache ⟨[], []⟩
  ((r.1.found_combos.map Prod.snd, r.1.potential_combos.map Prod.snd), r.2)

/-- The `/combos` handler `check_combos` from main.py: validation, the
matcher call, and response assembly. `processing_time` is the measured
wall-clock duration, passed in as a parameter of the embedding. -/
def check_combos (salt : Nat) (provider : String → ProviderResult)
    (combo_cache : Cache) (processing_time : Nat) (request : ComboRequest) :
    Except HTTPException ComboResponse × Cache :=
  if request.cards.isEmpty then
    (Except.error { status_code := 400, detail := "No cards provided" },
     combo_cache)
  else if request.cards.length > 200 then
    (Except.error { status_code := 400, detail := "Too many cards (max 200)" },
     combo_cache)
  else
    let r := find_combos_in_deck salt provider combo_cache request.cards
    (Except.ok
      { combos := r.1.1
        potential_combos := r.1.2.take 20
        analyzed_cards := request.cards.length
        processing_time := processing_time },
     r.2)


/-! Concrete fixtures (records, providers, states) used by the
witnesses and counterexamples below. -/

/-- Fixtures for claim C1: two provider records share the id "c1" with
different card lists, so the same identity is first registered as
potential (via the record missing "d") and later as complete. -/
def exC1_recPotential : ComboData :=
  { id := some "c1", cards := some ["A", "B", "D"] }

def exC1_recComplete : ComboData :=
  { id := some "c1", cards := some ["A", "B"] }

def exC1_provider : String → ProviderResult := fun n =>
  if n = "A" then ProviderResult.ok [exC1_recPotential]
  else if n = "B" then ProviderResult.ok [exC1_recComplete]
  else ProviderResult.ok []

def exC1_dc : DeckCombo :=
  { combo := comboOf "k" {}
    is_complete := true
    present_cards := []
    missing_cards := [] }

def exC1_pc : PotentialCombo :=
  { cards := [], missing_pieces := [], description := "" }

def exC1_state : MatcherState :=
  ⟨[("k", exC1_dc)], [("q", exC1_pc)]⟩

def exC2_provider : String → ProviderResult := fun _ => ProviderResult.unavailable

def exC3_rec : ComboData := { cards := some ["A", "B"] }

def exC3_provider : String → ProviderResult := fun _ => ProviderResult.ok [exC3_rec]

/-- Fixture for claim C4: a record sharing only one lowercased name
("a") with the deck ["A", "B"]. -/
def exC4_rec : ComboData := { id := some "x", cards := some ["A", "Z"] }

def exC4_provider : String → ProviderResult := fun _ => ProviderResult.ok [exC4_rec]

def exC7_rec : ComboData := { id := some "c1", cards := some ["A", "B"] }

def exC7_provider : String → ProviderResult := fun _ => ProviderResult.ok [exC7_rec]

def exC7_dc : DeckCombo :=
  { combo :=
      { id := "c1", name := none, cards := ["A", "B"], description := ""
        prerequisite := none, steps := [], result := "", color_identity := []
        source_url := none }
    is_complete := true
    present_cards := ["a", "b"]
    missing_cards := [] }

def exC8_provider : String → ProviderResult := fun _ => ProviderResult.unavailable

def exC9_provider : String → ProviderResult := fun _ => ProviderResult.ok []


end DeckTutor


namespace DeckTutor

theorem lookup_append_some {β : Type} {xs : List (String × β)} (ys : List (String × β))
    {i : String} {v : β} (h : xs.lookup i = some v) : (xs ++ ys).lookup i = some v := by
  induction xs with
  | nil => simp at h
  | cons p xs ih =>
    obtain ⟨k, w⟩ := p
    simp only [List.cons_append, List.lookup_cons] at h ⊢
    cases hik : i == k
    · rw [hik] at h; exact ih h
    · rw [hik] at h; exact h

theorem lookup_append_none {β : Type} {xs : List (String × β)} (ys : List (String × β))
    {i : String} (h : xs.lookup i = none) : (xs ++ ys).lookup i = ys.lookup i := by
  induction xs with
  | nil => rfl
  | cons p xs ih =>
    obtain ⟨k, w⟩ := p
    simp only [List.cons_append, List.lookup_cons] at h ⊢
    cases hik : i == k
    · rw [hik] at h; exact ih h
    · rw [hik] at h; exact absurd h (by simp)

theorem lookup_singleton_ne {β : Type} (k : String) (v : β) {i : String} (h : i ≠ k) :
    ([(k, v)] : List (String × β)).lookup i = none := by
  rw [List.lookup_cons]
  have hik : (i == k) = false := beq_false_of_ne h
  rw [hik]
  rfl

theorem lookup_append_single_ne {β : Type} (xs : List (String × β)) (k : String) (v : β)
    {i : String} (h : i ≠ k) : (xs ++ [(k, v)]).lookup i = xs.lookup i := by
  cases hx : xs.lookup i with
  | some w => exact lookup_append_some _ hx
  | none => rw [lookup_append_none _ hx, lookup_singleton_ne k v h]

theorem lookup_append_single_eq {β : Type} (xs : List (String × β)) (k : String) (v : β)
    (h : xs.lookup k = none) : (xs ++ [(k, v)]).lookup k = some v := by
  rw [lookup_append_none _ h, List.lookup_cons]
  have : (k == k) = true := beq_self_eq_true k
  rw [this]


theorem processRecord_cases (salt : Nat) (deck_cards : List String)
    (s : MatcherState) (d : ComboData) :
    processRecord salt deck_cards s d = s
    ∨ (¬(lowerCards d).isEmpty = true
        ∧ 2 ≤ (presentOf deck_cards d).length
        ∧ (missingOf deck_cards d).isEmpty = true
        ∧ s.found_combos.lookup (identityOf salt d) = none
        ∧ processRecord salt deck_cards s d =
          { s with found_combos := s.found_combos ++
              [(identityOf salt d, mkDeckCombo salt deck_cards d)] })
    ∨ (¬(lowerCards d).isEmpty = true
        ∧ 2 ≤ (presentOf deck_cards d).length
        ∧ ¬(missingOf deck_cards d).isEmpty = true
        ∧ s.potential_combos.lookup (identityOf salt d) = none
        ∧ s.found_combos.lookup (identityOf salt d) = none
        ∧ processRecord salt deck_cards s d =
          { s with potential_combos := s.potential_combos ++
              [(identityOf salt d, mkPotentialCombo deck_cards d)] }) := by
  unfold processRecord
  split_ifs with h1 h2 h3 h4 h5
  · exact Or.inl rfl
  · exact Or.inl rfl
  · exact Or.inl rfl
  · refine Or.inr (Or.inl ⟨h1, Nat.le_of_not_lt h2, h3, ?_, rfl⟩)
    exact Option.not_isSome_iff_eq_none.mp (by simpa using h4)
  · exact Or.inl rfl
  · rw [Bool.or_eq_true, not_or] at h5
    refine Or.inr (Or.inr ⟨h1, Nat.le_of_not_lt h2, h3, ?_, ?_, rfl⟩)
    · exact Option.not_isSome_iff_eq_none.mp (by simpa using h5.1)
    · exact Option.not_isSome_iff_eq_none.mp (by simpa using h5.2)

theorem processRecord_skip_complete (salt : Nat) (deck_cards : List String)
    (s : MatcherState) (d : ComboData)
    (hne : ¬(lowerCards d).isEmpty = true)
    (hlen : ¬(presentOf deck_cards d).length < 2)
    (hmiss : (missingOf deck_cards d).isEmpty = true)
    (hreg : (s.found_combos.lookup (identityOf salt d)).isSome = true) :
    processRecord salt deck_cards s d = s := by
  unfold processRecord
  rw [if_neg hne, if_neg hlen, if_pos hmiss, if_pos hreg]

theorem processRecord_skip_potential (salt : Nat) (deck_cards : List String)
    (s : MatcherState) (d : ComboData)
    (hne : ¬(lowerCards d).isEmpty = true)
    (hlen : ¬(presentOf deck_cards d).length < 2)
    (hmiss : ¬(missingOf deck_cards d).isEmpty = true)
    (hreg : ((s.potential_combos.lookup (identityOf salt d)).isSome
      || (s.found_combos.lookup (identityOf salt d)).isSome) = true) :
    processRecord salt deck_cards s d = s := by
  unfold processRecord
  rw [if_neg hne, if_neg hlen, if_neg hmiss, if_pos hreg]

theorem processRecord_found_keep (salt : Nat) (deck_cards : List String)
    (s : MatcherState) (d : ComboData) {i : String}
    (h : (s.found_combos.lookup i).isSome) :
    (processRecord salt deck_cards s d).found_combos.lookup i =
      s.found_combos.lookup i := by
  rcases processRecord_cases salt deck_cards s d with he | ⟨_, _, _, _, he⟩ | ⟨_, _, _, _, _, he⟩
  · rw [he]
  · rw [he]; dsimp only
    obtain ⟨v, hv⟩ := Option.isSome_iff_exists.mp h
    rw [lookup_append_some _ hv, hv]
  · rw [he]

theorem processRecord_potential_keep (salt : Nat) (deck_cards : List String)
    (s : MatcherState) (d : ComboData) {i : String}
    (h : (s.found_combos.lookup i).isSome ∨ (s.potential_combos.lookup i).isSome) :
    (processRecord salt deck_cards s d).potential_combos.lookup i =
      s.potential_combos.lookup i := by
  rcases processRecord_cases salt deck_cards s d with he | ⟨_, _, _, _, he⟩ | ⟨_, _, _, hp, hf, he⟩
  · rw [he]
  · rw [he]
  · rw [he]; dsimp only
    by_cases hik : i = identityOf salt d
    · subst hik
      rcases h with h | h
      · rw [hf] at h; simp at h
      · rw [hp] at h; simp at h
    · exact lookup_append_single_ne _ _ _ hik

theorem processRecord_absent (salt : Nat) (deck_cards : List String)
    (s : MatcherState) (d : ComboData) {i : String}
    (hbelow : identityOf salt d = i → (presentOf deck_cards d).length < 2)
    (hf : s.found_combos.lookup i = none)
    (hp : s.potential_combos.lookup i = none) :
    (processRecord salt deck_cards s d).found_combos.lookup i = none ∧
    (processRecord salt deck_cards s d).potential_combos.lookup i = none := by
  rcases processRecord_cases salt deck_cards s d with he | ⟨_, hlen, _, _, he⟩ | ⟨_, hlen, _, _, _, he⟩
  · rw [he]; exact ⟨hf, hp⟩
  · have hne : i ≠ identityOf salt d :=
      fun hh => absurd (hbelow hh.symm) (Nat.not_lt.mpr hlen)
    rw [he]; dsimp only
    exact ⟨by rw [lookup_append_single_ne _ _ _ hne]; exact hf, hp⟩
  · have hne : i ≠ identityOf salt d :=
      fun hh => absurd (hbelow hh.symm) (Nat.not_lt.mpr hlen)
    rw [he]; dsimp only
    exact ⟨hf, by rw [lookup_append_single_ne _ _ _ hne]; exact hp⟩

theorem foldl_found_keep (salt : Nat) (deck_cards : List String)
    (recs : List ComboData) (s : MatcherState) {i : String}
    (h : (s.found_combos.lookup i).isSome) :
    (recs.foldl (processRecord salt deck_cards) s).found_combos.lookup i =
      s.found_combos.lookup i := by
  induction recs generalizing s with
  | nil => rfl
  | cons d recs ih =>
    have h1 := processRecord_found_keep salt deck_cards s d h
    have h2 : ((processRecord salt deck_cards s d).found_combos.lookup i).isSome := by
      rw [h1]; exact h
    rw [List.foldl_cons, ih _ h2, h1]

theorem foldl_potential_keep_of_found (salt : Nat) (deck_cards : List String)
    (recs : List ComboData) (s : MatcherState) {i : String}
    (h : (s.found_combos.lookup i).isSome) :
    (recs.foldl (processRecord salt deck_cards) s).potential_combos.lookup i =
      s.potential_combos.lookup i := by
  induction recs generalizing s with
  | nil => rfl
  | cons d recs ih =>
    have h1 := processRecord_potential_keep salt deck_cards s d (Or.inl h)
    have h2 : ((processRecord salt deck_cards s d).found_combos.lookup i).isSome := by
      rw [processRecord_found_keep salt deck_cards s d h]; exact h
    rw [List.foldl_cons, ih _ h2, h1]

theorem foldl_potential_keep_of_potential (salt : Nat) (deck_cards : List String)
    (recs : List ComboData) (s : MatcherState) {i : String}
    (h : (s.potential_combos.lookup i).isSome) :
    (recs.foldl (processRecord salt deck_cards) s).potential_combos.lookup i =
      s.potential_combos.lookup i := by
  induction recs generalizing s with
  | nil => rfl
  | cons d recs ih =>
    have h1 := processRecord_potential_keep salt deck_cards s d (Or.inr h)
    have h2 : ((processRecord salt deck_cards s d).potential_combos.lookup i).isSome := by
      rw [h1]; exact h
    rw [List.foldl_cons, ih _ h2, h1]

theorem matchLoop_found_keep (salt : Nat) (provider : String → ProviderResult)
    (deck_cards : List String) (cards : List String) (cache : Cache)
    (s : MatcherState) {i : String}
    (h : (s.found_combos.lookup i).isSome) :
    (matchLoop salt provider deck_cards cards cache s).1.found_combos.lookup i =
      s.found_combos.lookup i := by
  induction cards generalizing cache s with
  | nil => rfl
  | cons c rest ih =>
    simp only [matchLoop]
    set r := get_card_combos_cached provider cache c with hr
    have h1 := foldl_found_keep salt deck_cards r.1 s h
    have h2 : ((r.1.foldl (processRecord salt deck_cards) s).found_combos.lookup i).isSome := by
      rw [h1]; exact h
    rw [ih _ _ h2, h1]

theorem matchLoop_potential_keep (salt : Nat) (provider : String → ProviderResult)
    (deck_cards : List String) (cards : List String) (cache : Cache)
    (s : MatcherState) {i : String}
    (h : (s.found_combos.lookup i).isSome ∨ (s.potential_combos.lookup i).isSome) :
    (matchLoop salt provider deck_cards cards cache s).1.potential_combos.lookup i =
      s.potential_combos.lookup i := by
  induction cards generalizing cache s with
  | nil => rfl
  | cons c rest ih =>
    simp only [matchLoop]
    set r := get_card_combos_cached provider cache c with hr
    rcases h with h | h
    · have h1 := foldl_potential_keep_of_found salt deck_cards r.1 s h
      have h2 : ((r.1.foldl (processRecord salt deck_cards) s).found_combos.lookup i).isSome := by
        rw [foldl_found_keep salt deck_cards r.1 s h]; exact h
      rw [ih _ _ (Or.inl h2), h1]
    · have h1 := foldl_potential_keep_of_potential salt deck_cards r.1 s h
      have h2 : ((r.1.foldl (processRecord salt deck_cards) s).potential_combos.lookup i).isSome := by
        rw [h1]; exact h
      rw [ih _ _ (Or.inr h2), h1]

theorem foldl_absent (salt : Nat) (deck_cards : List String) {i : String} :
    ∀ (recs : List ComboData) (s : MatcherState),
    (∀ d ∈ recs, identityOf salt d = i → (presentOf deck_cards d).length < 2) →
    s.found_combos.lookup i = none →
    s.potential_combos.lookup i = none →
    (recs.foldl (processRecord salt deck_cards) s).found_combos.lookup i = none ∧
    (recs.foldl (processRecord salt deck_cards) s).potential_combos.lookup i = none := by
  intro recs
  induction recs with
  | nil => intro s _ hf hp; exact ⟨hf, hp⟩
  | cons d recs ih =>
    intro s hrecs hf hp
    obtain ⟨hf1, hp1⟩ :=
      processRecord_absent salt deck_cards s d (hrecs d (by simp)) hf hp
    rw [List.foldl_cons]
    exact ih _ (fun d hd => hrecs d (by simp [hd])) hf1 hp1

theorem get_cached_hit {combo_cache : Cache} {card_name : String} {v : List ComboData}
    (provider : String → ProviderResult)
    (h : combo_cache.lookup (lower card_name) = some v) :
    get_card_combos_cached provider combo_cache card_name = (v, combo_cache) := by
  simp only [get_card_combos_cached, h]

theorem get_cached_miss_ok {combo_cache : Cache} {card_name : String}
    {provider : String → ProviderResult} {combos : List ComboData}
    (h1 : combo_cache.lookup (lower card_name) = none)
    (h2 : provider card_name = ProviderResult.ok combos) :
    get_card_combos_cached provider combo_cache card_name =
      (if combos.isEmpty then [] else combos,
       combo_cache ++ [(lower card_name, if combos.isEmpty then [] else combos)]) := by
  simp only [get_card_combos_cached, h1, h2]

theorem get_cached_miss_unavailable {combo_cache : Cache} {card_name : String}
    {provider : String → ProviderResult}
    (h1 : combo_cache.lookup (lower card_name) = none)
    (h2 : provider card_name = ProviderResult.unavailable) :
    get_card_combos_cached provider combo_cache card_name = ([], combo_cache) := by
  simp only [get_card_combos_cached, h1, h2]

theorem get_cached_miss_failure {combo_cache : Cache} {card_name : String}
    {provider : String → ProviderResult} {msg : String}
    (h1 : combo_cache.lookup (lower card_name) = none)
    (h2 : provider card_name = ProviderResult.failure msg) :
    get_card_combos_cached provider combo_cache card_name = ([], combo_cache) := by
  simp only [get_card_combos_cached, h1, h2]

theorem get_cached_pres (provider : String → ProviderResult) (combo_cache : Cache)
    (card_name : String) (P : ComboData → Prop)
    (hc : ∀ key recs, combo_cache.lookup key = some recs → ∀ d ∈ recs, P d)
    (hpr : ∀ n recs, provider n = ProviderResult.ok recs → ∀ d ∈ recs, P d) :
    (∀ d ∈ (get_card_combos_cached provider combo_cache card_name).1, P d) ∧
    (∀ key recs,
      (get_card_combos_cached provider combo_cache card_name).2.lookup key = some recs →
      ∀ d ∈ recs, P d) := by
  cases hcc : combo_cache.lookup (lower card_name) with
  | some v => rw [get_cached_hit provider hcc]; exact ⟨hc _ _ hcc, hc⟩
  | none =>
    cases hpv : provider card_name with
    | unavailable => rw [get_cached_miss_unavailable hcc hpv]; exact ⟨by simp, hc⟩
    | failure msg => rw [get_cached_miss_failure hcc hpv]; exact ⟨by simp, hc⟩
    | ok combos =>
      rw [get_cached_miss_ok hcc hpv]
      have hstored : ∀ d ∈ (if combos.isEmpty then [] else combos), P d := by
        by_cases he : combos.isEmpty
        · simp [he]
        · simp only [he, if_false]
          exact hpr _ _ hpv
      refine ⟨hstored, ?_⟩
      intro key recs hk d hd
      cases hck : combo_cache.lookup key with
      | some w =>
        rw [lookup_append_some _ hck] at hk
        exact hc _ _ (hk ▸ hck) d hd
      | none =>
        rw [lookup_append_none _ hck, List.lookup_cons] at hk
        cases hik : key == lower card_name
        · rw [hik] at hk; simp at hk
        · rw [hik] at hk
          have hrec : (if combos.isEmpty then [] else combos) = recs :=
            Option.some.inj hk
          exact hstored d (hrec ▸ hd)

theorem matchLoop_absent (salt : Nat) (provider : String → ProviderResult)
    (deck_cards : List String) {i : String}
    (hpr : ∀ n recs, provider n = ProviderResult.ok recs → ∀ d ∈ recs,
      identityOf salt d = i → (presentOf deck_cards d).length < 2) :
    ∀ (cards : List String) (combo_cache : Cache) (s : MatcherState),
    (∀ key recs, combo_cache.lookup key = some recs → ∀ d ∈ recs,
      identityOf salt d = i → (presentOf deck_cards d).length < 2) →
    s.found_combos.lookup i = none →
    s.potential_combos.lookup i = none →
    (matchLoop salt provider deck_cards cards combo_cache s).1.found_combos.lookup i = none ∧
    (matchLoop salt provider deck_cards cards combo_cache s).1.potential_combos.lookup i = none := by
  intro cards
  induction cards with
  | nil => intro combo_cache s _ hf hp; exact ⟨hf, hp⟩
  | cons c rest ih =>
    intro combo_cache s hc hf hp
    simp only [matchLoop]
    obtain ⟨h1, h2⟩ := get_cached_pres provider combo_cache c _ hc hpr
    obtain ⟨hf1, hp1⟩ := foldl_absent salt deck_cards _ _ h1 hf hp
    exact ih _ _ h2 hf1 hp1

theorem processRecord_found_sub (salt : Nat) (deck_cards : List String)
    (s : MatcherState) (d : ComboData) :
    (processRecord salt deck_cards s d).found_combos = s.found_combos ∨
    (processRecord salt deck_cards s d).found_combos =
      s.found_combos ++ [(identityOf salt d, mkDeckCombo salt deck_cards d)] := by
  rcases processRecord_cases salt deck_cards s d with he | ⟨_, _, _, _, he⟩ | ⟨_, _, _, _, _, he⟩
  · exact Or.inl (by rw [he])
  · exact Or.inr (by rw [he])
  · exact Or.inl (by rw [he])

theorem processRecord_potential_sub (salt : Nat) (deck_cards : List String)
    (s : MatcherState) (d : ComboData) :
    (processRecord salt deck_cards s d).potential_combos = s.potential_combos ∨
    (processRecord salt deck_cards s d).potential_combos =
      s.potential_combos ++ [(identityOf salt d, mkPotentialCombo deck_cards d)] := by
  rcases processRecord_cases salt deck_cards s d with he | ⟨_, _, _, _, he⟩ | ⟨_, _, _, _, _, he⟩
  · exact Or.inl (by rw [he])
  · exact Or.inl (by rw [he])
  · exact Or.inr (by rw [he])

theorem foldl_found_all (salt : Nat) (deck_cards : List String)
    (P : String × DeckCombo → Prop)
    (hmk : ∀ d, P (identityOf salt d, mkDeckCombo salt deck_cards d)) :
    ∀ (recs : List ComboData) (s : MatcherState),
    (∀ p ∈ s.found_combos, P p) →
    ∀ p ∈ (recs.foldl (processRecord salt deck_cards) s).found_combos, P p := by
  intro recs
  induction recs with
  | nil => intro s hs; exact hs
  | cons d recs ih =>
    intro s hs
    rw [List.foldl_cons]
    refine ih _ ?_
    rcases processRecord_found_sub salt deck_cards s d with he | he <;> rw [he]
    · exact hs
    · intro p hp
      rcases List.mem_append.mp hp with h | h
      · exact hs p h
      · rw [List.mem_singleton.mp h]
        exact hmk d

theorem matchLoop_found_all (salt : Nat) (provider : String → ProviderResult)
    (deck_cards : List String) (P : String × DeckCombo → Prop)
    (hmk : ∀ d, P (identityOf salt d, mkDeckCombo salt deck_cards d)) :
    ∀ (cards : List String) (combo_cache : Cache) (s : MatcherState),
    (∀ p ∈ s.found_combos, P p) →
    ∀ p ∈ (matchLoop salt provider deck_cards cards combo_cache s).1.found_combos, P p := by
  intro cards
  induction cards with
  | nil => intro combo_cache s hs; exact hs
  | cons c rest ih =>
    intro combo_cache s hs
    simp only [matchLoop]
    exact ih _ _ (foldl_found_all salt deck_cards P hmk _ _ hs)

theorem lookup_none_key_ne {β : Type} :
    ∀ (xs : List (String × β)) {i : String},
    xs.lookup i = none → ∀ p ∈ xs, p.1 ≠ i := by
  intro xs
  induction xs with
  | nil => intro i _ p hp; simp at hp
  | cons q xs ih =>
    intro i h p hp
    obtain ⟨k, v⟩ := q
    rw [List.lookup_cons] at h
    cases hik : i == k
    · rw [hik] at h
      rcases List.mem_cons.mp hp with hq | hq
      · intro hki
        have hne : i ≠ k := by simpa using hik
        rw [hq] at hki
        exact hne hki.symm
      · exact ih h p hq
    · rw [hik] at h; simp at h

/-- C1 counterexample: on the deck ["A", "B"], with two provider records
sharing identity "c1" (one complete, one potential), the identity "c1"
ends up registered in BOTH the complete map and the potential map — the
complete-results list contains a DeckCombo with id "c1" and the potential
map holds an entry under "c1" as well, refuting the mutual-exclusion
claim. -/
theorem C1_both_lists_counterexample :
    (((matchLoop 0 exC1_provider (["A", "B"].map lower) ["A", "B"] []
        ⟨[], []⟩).1.found_combos.lookup "c1").isSome = true)
    ∧ (((matchLoop 0 exC1_provider (["A", "B"].map lower) ["A", "B"] []
        ⟨[], []⟩).1.potential_combos.lookup "c1").isSome = true)
    ∧ ((find_combos_in_deck 0 exC1_provider [] ["A", "B"]).1.1.map
        (fun dc => dc.combo.id) = ["c1"])
    ∧ ((find_combos_in_deck 0 exC1_provider [] ["A", "B"]).1.2.length = 1) := by
  decide

/-- C1 (amended): an existing classification is never changed by later
records: an identity already in the complete map keeps its entry
unchanged for the rest of the request, and an identity already in the
complete map or in the potential map never gets a new or changed
potential entry. (The converse direction fails: an identity first
registered as potential can later also be registered as complete, so the
two maps are not mutually exclusive.) -/
theorem C1_first_classification_final (salt : Nat)
    (provider : String → ProviderResult) (deck_cards cards : List String)
    (combo_cache : Cache) (s : MatcherState) (i : String) :
    ((s.found_combos.lookup i).isSome →
      (matchLoop salt provider deck_cards cards combo_cache s).1.found_combos.lookup i =
        s.found_combos.lookup i)
    ∧ ((s.found_combos.lookup i).isSome ∨ (s.potential_combos.lookup i).isSome →
      (matchLoop salt provider deck_cards cards combo_cache s).1.potential_combos.lookup i =
        s.potential_combos.lookup i) :=
  ⟨fun h => matchLoop_found_keep salt provider deck_cards cards combo_cache s h,
   fun h => matchLoop_potential_keep salt provider deck_cards cards combo_cache s h⟩

theorem C1_first_classification_final_witness :
    ((matchLoop 0 exC1_provider (["A", "B"].map lower) ["A", "B"] []
        exC1_state).1.found_combos.lookup "k" =
      exC1_state.found_combos.lookup "k")
    ∧ ((matchLoop 0 exC1_provider (["A", "B"].map lower) ["A", "B"] []
        exC1_state).1.potential_combos.lookup "q" =
      exC1_state.potential_combos.lookup "q") :=
  ⟨(C1_first_classification_final 0 exC1_provider (["A", "B"].map lower)
      ["A", "B"] [] exC1_state "k").1 (by decide),
   (C1_first_classification_final 0 exC1_provider (["A", "B"].map lower)
      ["A", "B"] [] exC1_state "q").2 (Or.inr (by decide))⟩

/-- C2 counterexample: with an empty cache and a provider that is
unavailable, the lookup returns an empty list but caches NOTHING: the
cache is unchanged and the key is still absent afterwards, refuting the
claim that an empty list is cached for the key. A later lookup of the
same card therefore reaches the provider again. -/
theorem C2_no_negative_caching_counterexample :
    (get_card_combos_cached exC2_provider [] "Sol Ring").1 = []
    ∧ ((get_card_combos_cached exC2_provider [] "Sol Ring").2.lookup "sol ring" = none)
    ∧ (get_card_combos_cached exC2_provider [] "Sol Ring").2 = [] := by
  decide

/-- C2 (amended): when the cache lookup misses and the external provider
is unavailable (not importable) or raises an exception, the lookup
returns an empty list and leaves the cache unchanged — no entry is
stored for the key, so a subsequent lookup of that card calls the
provider again. -/
theorem C2_failure_returns_empty_uncached (provider : String → ProviderResult)
    (combo_cache : Cache) (card_name : String)
    (hmiss : combo_cache.lookup (lower card_name) = none)
    (hfail : provider card_name = ProviderResult.unavailable ∨
      ∃ msg, provider card_name = ProviderResult.failure msg) :
    get_card_combos_cached provider combo_cache card_name = ([], combo_cache) := by
  rcases hfail with h | ⟨msg, h⟩
  · exact get_cached_miss_unavailable hmiss h
  · exact get_cached_miss_failure hmiss h

theorem C2_failure_returns_empty_uncached_witness :
    get_card_combos_cached exC2_provider [] "Sol Ring" = ([], []) :=
  C2_failure_returns_empty_uncached exC2_provider [] "Sol Ring" rfl (Or.inl rfl)

set_option maxRecDepth 20000 in
/-- C3 counterexample: the identity of a record without an id is
synthesized through Python's built-in string hash, which is salted per
process; two runs of the matcher on the same input under different
process salts (here 0 and 1) produce different synthesized identities,
refuting cross-process determinism. -/
theorem C3_cross_process_counterexample :
    ((find_combos_in_deck 0 exC3_provider [] ["A", "B"]).1.1.map
      (fun dc => dc.combo.id)) ≠
    ((find_combos_in_deck 1 exC3_provider [] ["A", "B"]).1.1.map
      (fun dc => dc.combo.id)) := by
  decide

/-- C3 (amended): within a single process (a fixed hash salt) identity
synthesis is a deterministic function of the record's content, so
re-processing the very same record is a no-op on the matcher state —
the same identity is computed again and the existing classification is
kept. Across processes the salt differs and the synthesized identities
need not agree (see the counterexample). -/
theorem C3_within_process_deterministic (salt : Nat) (deck_cards : List String)
    (s : MatcherState) (d : ComboData) :
    processRecord salt deck_cards (processRecord salt deck_cards s d) d =
      processRecord salt deck_cards s d := by
  rcases processRecord_cases salt deck_cards s d with
    he | ⟨hne, hlen, hmiss, hn, he⟩ | ⟨hne, hlen, hmiss, hp, hf, he⟩
  · rw [he]; exact he
  · rw [he]
    apply processRecord_skip_complete salt deck_cards _ d hne
      (Nat.not_lt.mpr hlen) hmiss
    dsimp only
    rw [lookup_append_single_eq _ _ _ hn]
    rfl
  · rw [he]
    apply processRecord_skip_potential salt deck_cards _ d hne
      (Nat.not_lt.mpr hlen) hmiss
    dsimp only
    rw [lookup_append_single_eq _ _ _ hp]
    simp

/-- C4: a combo record whose card list shares fewer than 2 lowercased
names with the deck set is skipped entirely: if every record carrying a
given identity (whether already cached or returned by the provider) has
fewer than 2 present cards, that identity appears in neither the
complete-results list nor the potential-results map of the matcher. -/
theorem C4_threshold (salt : Nat) (provider : String → ProviderResult)
    (combo_cache : Cache) (card_names : List String) (i : String)
    (hcache : ∀ key recs, combo_cache.lookup key = some recs → ∀ d ∈ recs,
      identityOf salt d = i → (presentOf (card_names.map lower) d).length < 2)
    (hprov : ∀ n recs, provider n = ProviderResult.ok recs → ∀ d ∈ recs,
      identityOf salt d = i → (presentOf (card_names.map lower) d).length < 2) :
    (∀ dc ∈ (find_combos_in_deck salt provider combo_cache card_names).1.1,
      dc.combo.id ≠ i)
    ∧ (matchLoop salt provider (card_names.map lower) card_names combo_cache
        ⟨[], []⟩).1.potential_combos.lookup i = none := by
  obtain ⟨hf, hp⟩ := matchLoop_absent salt provider (card_names.map lower) hprov
    card_names combo_cache ⟨[], []⟩ hcache rfl rfl
  refine ⟨?_, hp⟩
  intro dc hdc
  simp only [find_combos_in_deck] at hdc
  rcases List.mem_map.mp hdc with ⟨p, hpmem, hpd⟩
  have hid := matchLoop_found_all salt provider (card_names.map lower)
    (fun p => p.2.combo.id = p.1) (fun d => rfl) card_names combo_cache
    ⟨[], []⟩ (by simp) p hpmem
  have hkey : p.1 ≠ i := lookup_none_key_ne _ hf p hpmem
  rw [← hpd, hid]
  exact hkey

theorem C4_threshold_witness :
    (∀ dc ∈ (find_combos_in_deck 0 exC4_provider [] ["A", "B"]).1.1,
      dc.combo.id ≠ "x")
    ∧ (matchLoop 0 exC4_provider (["A", "B"].map lower) ["A", "B"] []
        ⟨[], []⟩).1.potential_combos.lookup "x" = none :=
  C4_threshold 0 exC4_provider [] ["A", "B"] "x"
    (fun key recs h => by simp at h)
    (fun n recs h => by
      have hr : recs = [exC4_rec] := by
        have h2 : ProviderResult.ok [exC4_rec] = ProviderResult.ok recs := h
        exact ((ProviderResult.ok.injEq _ _).mp h2).symm
      subst hr
      intro d hd hid
      have hde : d = exC4_rec := List.mem_singleton.mp hd
      subst hde
      decide)

/-- C5: for every record the matcher classifies, the card list is
lowercased; `present` is exactly the lowercased combo cards that are in
the deck set and `missing` exactly those that are not, both preserving
the combo's own card order (they are sublists of the lowercased combo
card list); and a record whose card list is empty is discarded before
classification (processing it leaves the matcher state unchanged). -/
theorem C5_present_missing_partition (salt : Nat) (deck_cards : List String)
    (s : MatcherState) (d : ComboData) :
    ((d.cards.getD []) = [] → processRecord salt deck_cards s d = s)
    ∧ (∀ c, c ∈ presentOf deck_cards d ↔
        c ∈ lowerCards d ∧ deck_cards.contains c = true)
    ∧ (∀ c, c ∈ missingOf deck_cards d ↔
        c ∈ lowerCards d ∧ deck_cards.contains c = false)
    ∧ (presentOf deck_cards d).Sublist (lowerCards d)
    ∧ (missingOf deck_cards d).Sublist (lowerCards d) := by
  refine ⟨?_, ?_, ?_, ?_, ?_⟩
  · intro h
    unfold processRecord
    rw [if_pos (by simp [lowerCards, h])]
  · intro c
    simp [presentOf, List.mem_filter]
  · intro c
    simp [missingOf, List.mem_filter]
  · exact List.filter_sublist _
  · exact List.filter_sublist _

theorem C5_present_missing_partition_witness :
    processRecord 0 ["a"] ⟨[], []⟩ { cards := some [] } = ⟨[], []⟩ :=
  (C5_present_missing_partition 0 ["a"] ⟨[], []⟩ { cards := some [] }).1 rfl

/-- C6: every PotentialCombo the matcher constructs carries the
description `result` text of the record, falling back to the record's
`description` text when `result` is absent, and to the literal
placeholder "Unknown combo" when both are absent; and any entry the
potential branch appends has exactly this description (together with
the present/missing split). -/
theorem C6_description_fallback (salt : Nat) (deck_cards : List String)
    (s : MatcherState) (d : ComboData) :
    ((processRecord salt deck_cards s d).potential_combos = s.potential_combos ∨
      (processRecord salt deck_cards s d).potential_combos =
        s.potential_combos ++ [(identityOf salt d,
          { cards := presentOf deck_cards d
            missing_pieces := missingOf deck_cards d
            description := potentialDescription d })])
    ∧ (∀ r, d.result = some r → potentialDescription d = r)
    ∧ (d.result = none → ∀ t, d.description = some t → potentialDescription d = t)
    ∧ (d.result = none → d.description = none →
        potentialDescription d = "Unknown combo") := by
  refine ⟨?_, ?_, ?_, ?_⟩
  · rcases processRecord_potential_sub salt deck_cards s d with he | he
    · exact Or.inl he
    · exact Or.inr he
  · intro r hr
    simp [potentialDescription, hr]
  · intro h0 t ht
    simp [potentialDescription, h0, ht]
  · intro h0 h1
    simp [potentialDescription, h0, h1]

theorem C6_description_fallback_witness :
    potentialDescription { result := some "Win the game" } = "Win the game"
    ∧ potentialDescription { description := some "A combo" } = "A combo"
    ∧ potentialDescription {} = "Unknown combo" :=
  ⟨(C6_description_fallback 0 [] ⟨[], []⟩
      { result := some "Win the game" }).2.1 "Win the game" rfl,
   (C6_description_fallback 0 [] ⟨[], []⟩
      { description := some "A combo" }).2.2.1 rfl "A combo" rfl,
   (C6_description_fallback 0 [] ⟨[], []⟩ {}).2.2.2 rfl rfl⟩

/-- C7: every DeckCombo in the matcher's complete-results list has an
empty `missing_cards` list and `is_complete = true`, for every input
deck, cache and provider behaviour. -/
theorem C7_complete_combos_nothing_missing (salt : Nat)
    (provider : String → ProviderResult) (combo_cache : Cache)
    (card_names : List String) (dc : DeckCombo)
    (h : dc ∈ (find_combos_in_deck salt provider combo_cache card_names).1.1) :
    dc.missing_cards = [] ∧ dc.is_complete = true := by
  simp only [find_combos_in_deck] at h
  rcases List.mem_map.mp h with ⟨p, hpmem, hpd⟩
  have hall := matchLoop_found_all salt provider (card_names.map lower)
    (fun p => p.2.missing_cards = [] ∧ p.2.is_complete = true)
    (fun d => ⟨rfl, rfl⟩) card_names combo_cache ⟨[], []⟩ (by simp) p hpmem
  rw [← hpd]
  exact hall

theorem C7_complete_combos_nothing_missing_witness :
    exC7_dc.missing_cards = [] ∧ exC7_dc.is_complete = true :=
  C7_complete_combos_nothing_missing 0 exC7_provider [] ["A", "B"] exC7_dc
    (by decide)

/-- C8: on every successful request the response's potential_combos list
is exactly the first 20 entries, in insertion order, of the matcher's
potential results (so its length is at most 20), while the combos list
is the matcher's complete results untruncated. -/
theorem C8_potential_truncated_to_20 (salt : Nat)
    (provider : String → ProviderResult) (combo_cache : Cache)
    (processing_time : Nat) (request : ComboRequest)
    (resp : ComboResponse) (cache2 : Cache)
    (h : check_combos salt provider combo_cache processing_time request =
      (Except.ok resp, cache2)) :
    resp.combos = (find_combos_in_deck salt provider combo_cache request.cards).1.1
    ∧ resp.potential_combos =
        (find_combos_in_deck salt provider combo_cache request.cards).1.2.take 20
    ∧ resp.potential_combos.length ≤ 20 := by
  simp only [check_combos] at h
  split_ifs at h with h1 h2
  · simp at h
  · simp at h
  · rw [Prod.mk.injEq] at h
    obtain ⟨hre, _⟩ := h
    have hresp := (Except.ok.injEq _ _).mp hre
    refine ⟨?_, ?_, ?_⟩ <;> rw [← hresp]
    exact List.length_take_le 20
      (find_combos_in_deck salt provider combo_cache request.cards).1.2

theorem C8_potential_truncated_to_20_witness :
    ([] : List DeckCombo) = (find_combos_in_deck 0 exC8_provider [] ["A"]).1.1
    ∧ ([] : List PotentialCombo) =
        (find_combos_in_deck 0 exC8_provider [] ["A"]).1.2.take 20
    ∧ ([] : List PotentialCombo).length ≤ 20 :=
  C8_potential_truncated_to_20 0 exC8_provider [] 0 { cards := ["A"] }
    ⟨[], [], 1, 0⟩ [] (by rfl)

/-- C9: the request handler rejects an empty cards list and a cards list
of more than 200 entries, both with an HTTP 400 client error and with
the cache untouched (the matcher is not invoked); a request with 1 to
200 cards passes validation and produces a successful response. -/
theorem C9_request_validation (salt : Nat) (provider : String → ProviderResult)
    (combo_cache : Cache) (processing_time : Nat) (request : ComboRequest) :
    (request.cards = [] →
      check_combos salt provider combo_cache processing_time request =
        (Except.error { status_code := 400, detail := "No cards provided" },
         combo_cache))
    ∧ (200 < request.cards.length →
      check_combos salt provider combo_cache processing_time request =
        (Except.error { status_code := 400, detail := "Too many cards (max 200)" },
         combo_cache))
    ∧ (request.cards ≠ [] → request.cards.length ≤ 200 →
      ∃ resp cache2,
        check_combos salt provider combo_cache processing_time request =
          (Except.ok resp, cache2)) := by
  refine ⟨?_, ?_, ?_⟩
  · intro h
    simp [check_combos, h]
  · intro h
    have h1 : request.cards.isEmpty = false := by
      cases hc : request.cards with
      | nil => rw [hc] at h; simp at h
      | cons a l => rfl
    simp [check_combos, h1, h]
  · intro hne hle
    have h1 : request.cards.isEmpty = false := by
      cases hc : request.cards with
      | nil => exact absurd hc hne
      | cons a l => rfl
    have h2 : ¬ 200 < request.cards.length := Nat.not_lt.mpr hle
    have heq : check_combos salt provider combo_cache processing_time request =
        (Except.ok
          { combos :=
              (find_combos_in_deck salt provider combo_cache request.cards).1.1
            potential_combos :=
              (find_combos_in_deck salt provider combo_cache
                request.cards).1.2.take 20
            analyzed_cards := request.cards.length
            processing_time := processing_time },
         (find_combos_in_deck salt provider combo_cache request.cards).2) := by
      simp [check_combos, h1, h2]
    exact ⟨_, _, heq⟩

theorem C9_request_validation_witness :
    (check_combos 0 exC9_provider [] 0 { cards := [] } =
      (Except.error { status_code := 400, detail := "No cards provided" }, []))
    ∧ (check_combos 0 exC9_provider [] 0 { cards := List.replicate 201 "c" } =
      (Except.error { status_code := 400, detail := "Too many cards (max 200)" }, []))
    ∧ (∃ resp cache2,
        check_combos 0 exC9_provider [] 0 { cards := ["A"] } =
          (Except.ok resp, cache2)) :=
  ⟨(C9_request_validation 0 exC9_provider [] 0 { cards := [] }).1 rfl,
   (C9_request_validation 0 exC9_provider [] 0
      { cards := List.replicate 201 "c" }).2.1
      (by rw [List.length_replicate]; norm_num :
        (200 : Nat) < (List.replicate 201 "c").length),
   (C9_request_validation 0 exC9_provider [] 0 { cards := ["A"] }).2.2
      (by decide) (by decide)⟩

/-- C10: the optional commander field of a request has no effect on the
handler's result: two requests with the same cards list, cache, provider
and timing but different commander values produce identical outcomes
(response or error, and final cache). -/
theorem C10_commander_has_no_effect (salt : Nat)
    (provider : String → ProviderResult) (combo_cache : Cache)
    (processing_time : Nat) (cards : List String)
    (commander1 commander2 : Option String) :
    check_combos salt provider combo_cache processing_time
      { cards := cards, commander := commander1 } =
    check_combos salt provider combo_cache processing_time
      { cards := cards, commander := commander2 } := rfl

end DeckTutor
